import Mathlib

/-!
Verification of the ES (Evolution Strategies) algorithm implementation in
`rllib/algorithms/es/es.py` against its natural-language specification.

The embedding uses `ℚ` for the Python/numpy floating-point values (the
properties checked here are structural, not about rounding), `Nat` for
counts, lengths and indices, and explicit oracle streams for the sources of
randomness and for wall-clock readings.  Loops that depend on external data are
modelled with explicit fuel and return `Option`: `none` means the loop has
not yet exited within the given fuel.
-/

namespace ES

/-- One worker's result bundle, mirroring the `Result` namedtuple of
`es.py`: `noisy_returns`, `sign_noisy_returns` and `noisy_lengths` are lists
of two-element inner lists `[pos, neg]`, modelled as pairs. -/
structure Result where
  noise_indices : List Nat
  noisy_returns : List (ℚ × ℚ)
  sign_noisy_returns : List (ℚ × ℚ)
  noisy_lengths : List (Nat × Nat)
  eval_returns : List ℚ
  eval_lengths : List Nat
deriving Repr, DecidableEq

/-! ## SharedNoiseTable (es.py lines 170-187)

The table itself is a `List ℚ`.  `SharedNoiseTable.get` embeds the numpy
slice `self.noise[i : i + dim]` (for non-negative `i`, `dim`, a slice takes
at most `dim` elements starting at position `i`, silently stopping at the
end of the array).  `np.random.randint(0, n)` is embedded as `randint`
applied to an underlying draw `r`: for a draw uniform over `[0, n)` the
result is uniform over `[lo, hi)`. -/

/-- `self.noise[i : i + dim]` — numpy basic slicing with non-negative
bounds: drop `i` elements, then take at most `dim`. -/
def SharedNoiseTable.get (noise : List ℚ) (i dim : Nat) : List ℚ :=
  (noise.drop i).take dim

/-- `np.random.randint(lo, hi)` given the underlying uniform draw `r`
(uniform over `[0, hi - lo)`): returns `lo + r % (hi - lo)`. -/
def randint (lo hi r : Nat) : Nat :=
  lo + r % (hi - lo)

/-- `SharedNoiseTable.sample_index`: `np.random.randint(0, len(self.noise) - dim + 1)`,
parameterised by the table length `count` and the underlying draw `r`. -/
def SharedNoiseTable.sample_index (count dim r : Nat) : Nat :=
  randint 0 (count - dim + 1) r

/-- `create_shared_noise(count)` (es.py lines 170-175): seeds a fresh
generator with the literal `seed = 123` and draws `count` standard-normal
values.  `randn : seed → position → value` abstracts the deterministic
seeded stream `np.random.RandomState(seed).randn`; `runEntropy` stands for
any per-run/ambient randomness a non-deterministic implementation could
have consulted — the source never does, its generator state is a function
of the literal seed alone. -/
def create_shared_noise (randn : Nat → Nat → ℚ) (runEntropy : Nat)
    (count : Nat) : List ℚ :=
  let seed := 123
  (List.range count).map (randn seed)

/-! ## Worker.do_rollouts (es.py lines 261-310)

The worker loop draws `np.random.uniform()`, compares it to
`config["eval_prob"]`, and either performs one unperturbed evaluation
rollout or an antithetic pair of perturbed rollouts.  The loop keeps
iterating `while len(noise_indices) == 0 or time.time() - task_tstart <
self.min_task_runtime`.  Rollouts themselves (policy + environment) are
external collaborators, so every iteration's outcome is supplied by an
oracle: the uniform draw, the eval rollout outcome, the underlying draw of
`sample_index`, and the two perturbed rollout outcomes.  `times k` is the
value of `time.time()` observed at the `k`-th loop-condition check. -/

/-- The data `do_rollouts` keeps of one external `rollout` call:
`rewards.sum()`, `np.sign(rewards).sum()`, and the episode length. -/
structure RolloutOut where
  rewardSum : ℚ
  signSum : ℚ
  len : Nat
deriving Repr, DecidableEq

/-- Oracle for one iteration of the `do_rollouts` while-loop. -/
structure IterOracle where
  u : ℚ
  evalRoll : RolloutOut
  noiseDraw : Nat
  rollPos : RolloutOut
  rollNeg : RolloutOut
deriving Repr, DecidableEq

/-- The worker's accumulator lists
`noise_indices, returns, sign_returns, lengths, eval_returns, eval_lengths`. -/
structure DoState where
  noise_indices : List Nat
  returns : List (ℚ × ℚ)
  sign_returns : List (ℚ × ℚ)
  lengths : List (Nat × Nat)
  eval_returns : List ℚ
  eval_lengths : List Nat
deriving Repr, DecidableEq

/-- The empty accumulators at loop entry. -/
def DoState.empty : DoState := ⟨[], [], [], [], [], []⟩

/-- One body iteration of the `do_rollouts` while-loop: if the uniform draw
is below `eval_prob`, run an evaluation rollout and append its total return
and length; otherwise sample a noise index, run the `+perturbation` and
`-perturbation` rollouts, and append the index, the paired returns, the
paired sign-returns, and the paired lengths. -/
def doRolloutsBody (eval_prob : ℚ) (noiseCount numParams : Nat)
    (o : IterOracle) (s : DoState) : DoState :=
  if o.u < eval_prob then
    { s with
      eval_returns := s.eval_returns ++ [o.evalRoll.rewardSum]
      eval_lengths := s.eval_lengths ++ [o.evalRoll.len] }
  else
    let noise_index := SharedNoiseTable.sample_index noiseCount numParams o.noiseDraw
    { s with
      noise_indices := s.noise_indices ++ [noise_index]
      returns := s.returns ++ [(o.rollPos.rewardSum, o.rollNeg.rewardSum)]
      sign_returns := s.sign_returns ++ [(o.rollPos.signSum, o.rollNeg.signSum)]
      lengths := s.lengths ++ [(o.rollPos.len, o.rollNeg.len)] }

/-- The `do_rollouts` while-loop with explicit fuel.  At each check `k` the
loop continues iff `noise_indices` is still empty or the elapsed time
`times k - tstart` is below `min_task_runtime`; on exit it packages the
accumulators into a `Result` (the second component records the clock value
observed at the exit check). -/
def doRolloutsLoop (eval_prob : ℚ) (noiseCount numParams : Nat)
    (min_task_runtime : ℚ) (oracle : Nat → IterOracle) (times : Nat → ℚ)
    (tstart : ℚ) : Nat → DoState → Nat → Option (Result × ℚ)
  | k, s, fuel =>
    if s.noise_indices.length = 0 ∨ times k - tstart < min_task_runtime then
      match fuel with
      | 0 => none
      | fuel' + 1 =>
          doRolloutsLoop eval_prob noiseCount numParams min_task_runtime
            oracle times tstart (k + 1)
            (doRolloutsBody eval_prob noiseCount numParams (oracle k) s) fuel'
    else
      some (⟨s.noise_indices, s.returns, s.sign_returns, s.lengths,
             s.eval_returns, s.eval_lengths⟩, times k)

/-- `Worker.do_rollouts(params)`: start the clock at `tstart = times 0`
(the loop records `task_tstart = time.time()` right before the first
condition check) and run the loop from empty accumulators. -/
def do_rollouts (eval_prob : ℚ) (noiseCount numParams : Nat)
    (min_task_runtime : ℚ) (oracle : Nat → IterOracle) (times : Nat → ℚ)
    (tstart : ℚ) (fuel : Nat) : Option (Result × ℚ) :=
  doRolloutsLoop eval_prob noiseCount numParams min_task_runtime oracle times
    tstart 0 DoState.empty fuel

/-! ## ES._collect_results (es.py lines 532-553)

The coordinator repeatedly fans out `do_rollouts` to all workers and
accumulates `num_episodes` and `num_timesteps` from each returned bundle's
`noisy_lengths` only, `while num_episodes < min_episodes or num_timesteps <
min_timesteps`.  The successive rounds' worker outputs are supplied by the
oracle `rounds : Nat → List Result`. -/

/-- `sum(len(pair) for pair in result.noisy_lengths)` — every inner list
`pair` is the two-element list `[lengths_pos, lengths_neg]`, so `len(pair)`
is `2`. -/
def resultEpisodes (r : Result) : Nat :=
  (r.noisy_lengths.map (fun _pair => 2)).sum

/-- `sum(sum(pair) for pair in result.noisy_lengths)`. -/
def resultTimesteps (r : Result) : Nat :=
  (r.noisy_lengths.map (fun pair => pair.1 + pair.2)).sum

/-- The `_collect_results` while-loop with explicit fuel: while either
quota is unmet, fetch the next round of bundles, append them all to
`results`, and add each bundle's episode and timestep counts. -/
def collectLoop (rounds : Nat → List Result) (min_episodes min_timesteps : Nat) :
    Nat → Nat → Nat → List Result → Nat → Option (List Result × Nat × Nat)
  | k, num_episodes, num_timesteps, results, fuel =>
    if num_episodes < min_episodes ∨ num_timesteps < min_timesteps then
      match fuel with
      | 0 => none
      | fuel' + 1 =>
          let rs := rounds k
          collectLoop rounds min_episodes min_timesteps (k + 1)
            (rs.foldl (fun n r => n + resultEpisodes r) num_episodes)
            (rs.foldl (fun n r => n + resultTimesteps r) num_timesteps)
            (results ++ rs) fuel'
    else
      some (results, num_episodes, num_timesteps)

/-- `ES._collect_results(theta_id, min_episodes, min_timesteps)`. -/
def collect_results (rounds : Nat → List Result)
    (min_episodes min_timesteps : Nat) (fuel : Nat) :
    Option (List Result × Nat × Nat) :=
  collectLoop rounds min_episodes min_timesteps 0 0 0 [] fuel

/-! ## Gradient aggregation in ES.step (es.py lines 460-470)

`ES.step` calls `utils.batched_weighted_sum(proc_noisy_returns[:, 0] -
proc_noisy_returns[:, 1], (self.noise.get(index, num_params) for index in
noise_indices), batch_size=500)` and then `g /= noisy_returns.size`.
`utils.batched_weighted_sum` and `utils.compute_centered_ranks` live in a
sibling module that is not part of this source tree; the aggregator is
therefore modelled from the spec below, and the rank transform is kept
abstract (`procFn`), constrained only by the shape preservation the spec
states (`[N][2]` in, `[N][2]` out). -/

/-- Elementwise vector sum of two equal-length vectors. -/
def vadd (a b : List ℚ) : List ℚ := List.zipWith (· + ·) a b

/-- Scale a vector by a scalar. -/
def vscale (c : ℚ) (v : List ℚ) : List ℚ := v.map (fun x => c * x)

/-- Split a list into consecutive chunks of `n` elements (the last chunk may
be shorter).  For `n = 0` the source generator would never advance; that
argument is never used (`step` passes `batch_size=500`), and we return `[]`. -/
def chunks (n : Nat) : List α → List (List α)
  | [] => []
  | x :: xs =>
    if n = 0 then []
    else (x :: xs).take n :: chunks n ((x :: xs).drop n)
termination_by l => l.length
decreasing_by
  simp only [List.length_drop, List.length_cons]
  omega

/-- Modelled from the spec: `utils.batched_weighted_sum(weights, vecs,
batch_size)` is not in this source tree.  Per §4.6 it pairs the `N` weights
with the `N` lazily produced vectors, processes them in chunks of
`batch_size` pairs, accumulates `sum += weight_i * vector_i` per element
into a length-`numParams` accumulator, and returns the accumulated sum
together with the count of pairs summed. -/
def batched_weighted_sum (numParams batch_size : Nat) (ws : List ℚ)
    (vs : List (List ℚ)) : List ℚ × Nat :=
  (chunks batch_size (List.zip ws vs)).foldl
    (fun acc chunk =>
      (chunk.foldl (fun a p => vadd a (vscale p.1 p.2)) acc.1,
       acc.2 + chunk.length))
    (List.replicate numParams 0, 0)

/-- The plain (unchunked) weighted sum `Σ weight_i * vector_i` accumulated
into a length-`numParams` zero vector, used to state what the batched
aggregator computes. -/
def weighted_sum (numParams : Nat) (ws : List ℚ) (vs : List (List ℚ)) : List ℚ :=
  (List.zip ws vs).foldl (fun a p => vadd a (vscale p.1 p.2))
    (List.replicate numParams 0)

/-- The gradient-estimate fragment of `ES.step` (es.py lines 456-465):
process the returns (`procFn` abstracts `utils.compute_centered_ranks`),
form the per-pair weights `proc[:, 0] - proc[:, 1]`, reconstruct each noise
window lazily with `self.noise.get(index, num_params)`, call the batched
aggregator with `batch_size=500`, and divide by `noisy_returns.size` — the
array has shape `[N, 2]`, so its size is `2 * N`. -/
def stepGradient (noise : List ℚ) (numParams : Nat)
    (procFn : List (ℚ × ℚ) → List (ℚ × ℚ)) (noise_indices : List Nat)
    (noisy_returns : List (ℚ × ℚ)) : List ℚ × Nat :=
  let proc_noisy_returns := procFn noisy_returns
  let ws := proc_noisy_returns.map (fun p => p.1 - p.2)
  let vs := noise_indices.map (fun i => SharedNoiseTable.get noise i numParams)
  let gc := batched_weighted_sum numParams 500 ws vs
  (gc.1.map (fun x => x / ((2 * noisy_returns.length : Nat) : ℚ)), gc.2)

/-! ## Reward reporting in ES.step (es.py lines 481-503)

Each iteration appends `np.mean(eval_returns)` to `self.reward_list` — but
only `if len(all_eval_returns) > 0` — and then reports
`reward_mean = np.mean(self.reward_list[-self.report_length:])`. -/

/-- `np.mean` over a list of rationals (`sum / len`; on the empty list
numpy yields NaN, modelled here by `ℚ`'s `0 / 0 = 0`). -/
def npMean (l : List ℚ) : ℚ := l.sum / (l.length : ℚ)

/-- The Python slice `l[-k:]`: for `k = 0` this is `l[0:]`, the whole list;
for `k > 0` it is the last `min k (len l)` elements. -/
def tailSlice (l : List ℚ) (k : Nat) : List ℚ :=
  if k = 0 then l else l.drop (l.length - k)

/-- One iteration's effect on `self.reward_list`: append the mean of this
iteration's evaluation returns, but only if there was at least one
evaluation rollout (`if len(all_eval_returns) > 0`). -/
def updateRewardList (reward_list : List ℚ) (all_eval_returns : List ℚ) :
    List ℚ :=
  if 0 < all_eval_returns.length then reward_list ++ [npMean all_eval_returns]
  else reward_list

/-- `self.reward_list` after a run of iterations, the `i`-th of which
collected the evaluation returns `iters[i]`. -/
def rewardListAfter (iters : List (List ℚ)) : List ℚ :=
  iters.foldl updateRewardList []

/-- `episode_reward_mean` reported at the end of the last iteration:
`np.mean(self.reward_list[-self.report_length:])`. -/
def episodeRewardMean (iters : List (List ℚ)) (report_length : Nat) : ℚ :=
  npMean (tailSlice (rewardListAfter iters) report_length)

/-- What the claim asserts: the mean of the last `report_length`
*individual* evaluation scores collected across iterations. -/
def claimedRewardMean (iters : List (List ℚ)) (report_length : Nat) : ℚ :=
  npMean (tailSlice iters.flatten report_length)

/-! ## ES.validate_config (es.py lines 331-350) -/

/-- The fields of `evaluation_config` that `ES.validate_config` inspects. -/
structure EvaluationConfig where
  num_envs_per_worker : Int
  observation_filter : String
deriving Repr, DecidableEq

/-- The fields of the config dict that `ES.validate_config` inspects beyond
the superclass validation (`num_gpus` may be fractional in this system, so
it is a rational). -/
structure Config where
  num_gpus : ℚ
  num_workers : Int
  evaluation_config : EvaluationConfig
deriving Repr, DecidableEq

/-- `ES.validate_config(config)`, the checks performed after
`super().validate_config(config)` returns: each violated condition raises a
`ValueError` with the corresponding message; otherwise the method returns
`None`. -/
def validate_config (config : Config) : Except String Unit :=
  if config.num_gpus > 1 then
    .error "`num_gpus` > 1 not yet supported for ES!"
  else if config.num_workers ≤ 0 then
    .error "`num_workers` must be > 0 for ES!"
  else if config.evaluation_config.num_envs_per_worker ≠ 1 then
    .error "`evaluation_config.num_envs_per_worker` must always be 1 for ES!"
  else if config.evaluation_config.observation_filter ≠ "NoFilter" then
    .error "`evaluation_config.observation_filter` must always be `NoFilter` for ES!"
  else
    .ok ()

/-! ## Helper lemmas -/

/-- Unfolding one check of the `_collect_results` loop. -/
theorem collectLoop_eq (rounds : Nat → List Result) (minE minT k nE nT : Nat)
    (acc : List Result) (fuel : Nat) :
    collectLoop rounds minE minT k nE nT acc fuel
      = if nE < minE ∨ nT < minT then
          match fuel with
          | 0 => none
          | fuel' + 1 =>
              collectLoop rounds minE minT (k + 1)
                ((rounds k).foldl (fun n r => n + resultEpisodes r) nE)
                ((rounds k).foldl (fun n r => n + resultTimesteps r) nT)
                (acc ++ rounds k) fuel'
        else some (acc, nE, nT) := by
  rw [collectLoop.eq_def]

/-- Whenever `collectLoop` returns, the returned episode and timestep
counts satisfy both quotas, whatever state the loop was entered in. -/
theorem collectLoop_quotas (rounds : Nat → List Result) (minE minT : Nat) :
    ∀ fuel k nE nT acc out,
      collectLoop rounds minE minT k nE nT acc fuel = some out →
      minE ≤ out.2.1 ∧ minT ≤ out.2.2 := by
  intro fuel
  induction fuel with
  | zero =>
      rintro k nE nT acc ⟨rs, e, t⟩ h
      rw [collectLoop_eq] at h
      by_cases hc : nE < minE ∨ nT < minT
      · simp [hc] at h
      · rw [if_neg hc] at h
        simp only [Option.some.injEq, Prod.mk.injEq] at h
        obtain ⟨-, h2, h3⟩ := h
        change minE ≤ e ∧ minT ≤ t
        omega
  | succ fuel ih =>
      rintro k nE nT acc ⟨rs, e, t⟩ h
      rw [collectLoop_eq] at h
      by_cases hc : nE < minE ∨ nT < minT
      · rw [if_pos hc] at h
        exact ih _ _ _ _ _ h
      · rw [if_neg hc] at h
        simp only [Option.some.injEq, Prod.mk.injEq] at h
        obtain ⟨-, h2, h3⟩ := h
        change minE ≤ e ∧ minT ≤ t
        omega

/-- C1: whenever the coordinator collection loop
`_collect_results(theta_id, min_episodes, min_timesteps)` returns, the
returned `num_episodes` is `≥ min_episodes` and the returned
`num_timesteps` is `≥ min_timesteps`; an unmet quota only keeps the loop
iterating (`none` here means the loop is still running), it is never an
error and never lets the loop return early. -/
theorem collect_results_meets_quotas (rounds : Nat → List Result)
    (min_episodes min_timesteps fuel : Nat) (out : List Result × Nat × Nat)
    (h : collect_results rounds min_episodes min_timesteps fuel = some out) :
    min_episodes ≤ out.2.1 ∧ min_timesteps ≤ out.2.2 :=
  collectLoop_quotas rounds min_episodes min_timesteps fuel 0 0 0 [] out h

/-- C1 witness: a concrete run (one worker returning one perturbation pair
of lengths 10 and 20 per round) that exits after one round with quotas
`min_episodes = 2`, `min_timesteps = 30` met. -/
theorem collect_results_meets_quotas_witness :
    2 ≤ (([(⟨[7], [(1, 2)], [(1, -1)], [(10, 20)], [5], [3]⟩ : Result)], 2, 30) :
          List Result × Nat × Nat).2.1 ∧
    30 ≤ (([(⟨[7], [(1, 2)], [(1, -1)], [(10, 20)], [5], [3]⟩ : Result)], 2, 30) :
          List Result × Nat × Nat).2.2 :=
  collect_results_meets_quotas
    (fun _ => [⟨[7], [(1, 2)], [(1, -1)], [(10, 20)], [5], [3]⟩]) 2 30 1
    ([⟨[7], [(1, 2)], [(1, -1)], [(10, 20)], [5], [3]⟩], 2, 30) (by decide)

/-- Counters of `collectLoop` are insensitive to the bundles' evaluation
fields: replacing every bundle's `eval_returns`/`eval_lengths` by anything
changes neither the loop's control flow nor the returned
`(num_episodes, num_timesteps)`. -/
theorem collectLoop_counters_ignore_eval (rounds : Nat → List Result)
    (er : Nat → Result → List ℚ) (el : Nat → Result → List Nat)
    (minE minT : Nat) :
    ∀ fuel k nE nT acc₁ acc₂,
      (collectLoop (fun j => (rounds j).map (fun r =>
          { r with eval_returns := er j r, eval_lengths := el j r }))
          minE minT k nE nT acc₁ fuel).map (fun out => (out.2.1, out.2.2))
        = (collectLoop rounds minE minT k nE nT acc₂ fuel).map
            (fun out => (out.2.1, out.2.2)) := by
  intro fuel
  induction fuel with
  | zero =>
      intro k nE nT acc₁ acc₂
      rw [collectLoop_eq, collectLoop_eq]
      by_cases hc : nE < minE ∨ nT < minT
      · rw [if_pos hc, if_pos hc]
      · rw [if_neg hc, if_neg hc]
        rfl
  | succ fuel ih =>
      intro k nE nT acc₁ acc₂
      rw [collectLoop_eq, collectLoop_eq]
      by_cases hc : nE < minE ∨ nT < minT
      · rw [if_pos hc, if_pos hc]
        simp only [List.foldl_map]
        exact ih _ _ _ _ _
      · rw [if_neg hc, if_neg hc]
        rfl

/-- C10: evaluation rollouts contribute nothing to the collection quotas.
In `_collect_results`, the episode and timestep counters are accumulated
exclusively from each bundle's `noisy_lengths`: replacing every bundle's
`eval_returns` and `eval_lengths` by arbitrary data leaves the returned
`(num_episodes, num_timesteps)` (and the loop's control flow) unchanged,
and each perturbation pair contributes exactly `2` episodes and both
legs' lengths. -/
theorem collect_results_counters_ignore_eval (rounds : Nat → List Result)
    (er : Nat → Result → List ℚ) (el : Nat → Result → List Nat)
    (min_episodes min_timesteps fuel : Nat) :
    ((collect_results (fun j => (rounds j).map (fun r =>
        { r with eval_returns := er j r, eval_lengths := el j r }))
        min_episodes min_timesteps fuel).map (fun out => (out.2.1, out.2.2))
      = (collect_results rounds min_episodes min_timesteps fuel).map
          (fun out => (out.2.1, out.2.2))) ∧
    ∀ r : Result, resultEpisodes r = 2 * r.noisy_lengths.length ∧
      resultTimesteps r = (r.noisy_lengths.map (fun pair => pair.1 + pair.2)).sum := by
  constructor
  · exact collectLoop_counters_ignore_eval rounds er el min_episodes
      min_timesteps fuel 0 0 0 [] []
  · intro r
    constructor
    · simp [resultEpisodes, List.map_const', Nat.mul_comm]
    · rfl

/-- C2 counterexample: on the 3-element table `[1, 2, 3]`, the request
`get(2, 3)` has `i + dim = 5 > 3 = count`, yet the numpy slice
`noise[2 : 5]` does not fail — it silently clamps to the 1-element window
`[3]`, refuting "fails with a bounds error whenever `i + dim > count` …
never silently clamps". -/
theorem get_out_of_bounds_silently_clamps :
    SharedNoiseTable.get [1, 2, 3] 2 3 = [3] ∧
    (SharedNoiseTable.get [1, 2, 3] 2 3).length = 1 := by
  decide

/-- C2 (amended): `SharedNoiseTable.get(i, dim)` never fails; it returns the
window silently clamped at the table end — exactly
`min dim (count - i)` elements, the `j`-th being table entry `i + j` — and
in particular, for in-bounds requests (`i + dim ≤ count`) the full
contiguous `dim`-element window starting at `i`. -/
theorem get_returns_clamped_window (noise : List ℚ) (i dim : Nat) :
    (SharedNoiseTable.get noise i dim).length = min dim (noise.length - i) ∧
    ∀ j : Nat, (SharedNoiseTable.get noise i dim).getD j 0
        = if j < min dim (noise.length - i) then noise.getD (i + j) 0 else 0 := by
  have hlen : (SharedNoiseTable.get noise i dim).length
      = min dim (noise.length - i) := by
    simp [SharedNoiseTable.get]
  refine ⟨hlen, fun j => ?_⟩
  by_cases hj : j < min dim (noise.length - i)
  · rw [if_pos hj, List.getD_eq_getElem?_getD, List.getD_eq_getElem?_getD]
    unfold SharedNoiseTable.get
    rw [List.getElem?_take_of_lt (by omega), List.getElem?_drop]
  · rw [if_neg hj, List.getD_eq_getElem?_getD, List.getElem?_eq_none (by omega)]
    rfl

/-- C3: on a table of `count` elements with `dim ≤ count`,
`sample_index(dim) = np.random.randint(0, count - dim + 1)` always lands in
`[0, count - dim]` inclusive; every value of that range is attained; and on
draws `r` within `[0, count - dim + 1)` the map is the identity, so a
uniform underlying draw makes every admissible index equally likely and no
value outside the range is ever produced. -/
theorem sample_index_range_and_uniform (count dim : Nat) (h : dim ≤ count) :
    (∀ r, SharedNoiseTable.sample_index count dim r ≤ count - dim) ∧
    (∀ k, k ≤ count - dim → ∃ r, SharedNoiseTable.sample_index count dim r = k) ∧
    (∀ r, r < count - dim + 1 → SharedNoiseTable.sample_index count dim r = r) := by
  unfold SharedNoiseTable.sample_index randint
  simp only [Nat.sub_zero, Nat.zero_add]
  refine ⟨fun r => ?_, fun k hk => ⟨k, ?_⟩, fun r hr => ?_⟩
  · have hlt : r % (count - dim + 1) < count - dim + 1 :=
      Nat.mod_lt r (by omega)
    omega
  · simp [Nat.mod_eq_of_lt (show k < count - dim + 1 by omega)]
  · simp [Nat.mod_eq_of_lt hr]

/-- C3 witness: table length `10`, window `4`: index `9` (the maximum
admissible one, from draw `9`) is produced, stays `≤ 6`, and the map is the
identity on `[0, 7)`. -/
theorem sample_index_range_and_uniform_witness :
    (∀ r, SharedNoiseTable.sample_index 10 4 r ≤ 10 - 4) ∧
    (∀ k, k ≤ 10 - 4 → ∃ r, SharedNoiseTable.sample_index 10 4 r = k) ∧
    (∀ r, r < 10 - 4 + 1 → SharedNoiseTable.sample_index 10 4 r = r) :=
  sample_index_range_and_uniform 10 4 (by decide)

/-- C4: for any index that `sample_index(P)` can return on this table
(`P ≤ count`), `get(index, P)` returns a slice of exactly `P` elements and
the window `[index, index + P)` stays entirely inside the table. -/
theorem sampled_index_window_safe (noise : List ℚ) (numParams : Nat)
    (h : numParams ≤ noise.length) (r : Nat) :
    (SharedNoiseTable.get noise
        (SharedNoiseTable.sample_index noise.length numParams r)
        numParams).length = numParams ∧
    SharedNoiseTable.sample_index noise.length numParams r + numParams
      ≤ noise.length := by
  have hidx : SharedNoiseTable.sample_index noise.length numParams r
      ≤ noise.length - numParams := by
    unfold SharedNoiseTable.sample_index randint
    simp only [Nat.sub_zero, Nat.zero_add]
    have hlt : r % (noise.length - numParams + 1)
        < noise.length - numParams + 1 := Nat.mod_lt r (by omega)
    omega
  constructor
  · simp only [SharedNoiseTable.get, List.length_take, List.length_drop]
    omega
  · omega

/-- C4 witness: a 5-element table, `P = 3`, draw `7`: `sample_index` yields
`7 % 3 = 1` and `get(1, 3)` is the full 3-element window ending at
position `4 ≤ 5`. -/
theorem sampled_index_window_safe_witness :
    (SharedNoiseTable.get [1, 2, 3, 4, 5]
        (SharedNoiseTable.sample_index 5 3 7) 3).length = 3 ∧
    SharedNoiseTable.sample_index 5 3 7 + 3 ≤ 5 := by
  have hbase := sampled_index_window_safe [1, 2, 3, 4, 5] 3 (by decide) 7
  simpa using hbase

/-- C9: `create_shared_noise(count)` is a function of `count` alone — its
generator is seeded with the literal constant `123`, so no per-run entropy
influences the produced sequence.  Two runs (or two workers) building the
table for the same `count` obtain identical sequences, and consequently
reconstruct identical perturbation windows from the same `noise_index`. -/
theorem create_shared_noise_run_independent (randn : Nat → Nat → ℚ)
    (e₁ e₂ count i dim : Nat) :
    create_shared_noise randn e₁ count = create_shared_noise randn e₂ count ∧
    SharedNoiseTable.get (create_shared_noise randn e₁ count) i dim
      = SharedNoiseTable.get (create_shared_noise randn e₂ count) i dim :=
  ⟨rfl, rfl⟩

/-- C8: the ES-specific part of `validate_config` (run after the
superclass's own validation) raises a `ValueError` precisely when
`num_gpus > 1`, or `num_workers ≤ 0`, or
`evaluation_config.num_envs_per_worker ≠ 1`, or
`evaluation_config.observation_filter ≠ "NoFilter"`; otherwise it accepts
the config unchanged. -/
theorem validate_config_error_iff (config : Config) :
    validate_config config ≠ .ok () ↔
      (1 < config.num_gpus ∨ config.num_workers ≤ 0 ∨
       config.evaluation_config.num_envs_per_worker ≠ 1 ∨
       config.evaluation_config.observation_filter ≠ "NoFilter") := by
  unfold validate_config
  split_ifs with h1 h2 h3 h4 <;> simp_all

/-- Unfolding one check of the `do_rollouts` while-loop. -/
theorem doRolloutsLoop_eq (eval_prob : ℚ) (noiseCount numParams : Nat)
    (min_task_runtime : ℚ) (oracle : Nat → IterOracle) (times : Nat → ℚ)
    (tstart : ℚ) (k : Nat) (s : DoState) (fuel : Nat) :
    doRolloutsLoop eval_prob noiseCount numParams min_task_runtime oracle
        times tstart k s fuel
      = if s.noise_indices.length = 0 ∨ times k - tstart < min_task_runtime then
          match fuel with
          | 0 => none
          | fuel' + 1 =>
              doRolloutsLoop eval_prob noiseCount numParams min_task_runtime
                oracle times tstart (k + 1)
                (doRolloutsBody eval_prob noiseCount numParams (oracle k) s)
                fuel'
        else
          some (⟨s.noise_indices, s.returns, s.sign_returns, s.lengths,
                 s.eval_returns, s.eval_lengths⟩, times k) := by
  rw [doRolloutsLoop.eq_def]

/-- Whenever the `do_rollouts` loop exits, its negated continuation
condition holds: the collected `noise_indices` are non-empty and the clock
reading at the exit check is at least `min_task_runtime` past `tstart` —
from any intermediate state. -/
theorem doRolloutsLoop_exit (eval_prob : ℚ) (noiseCount numParams : Nat)
    (min_task_runtime : ℚ) (oracle : Nat → IterOracle) (times : Nat → ℚ)
    (tstart : ℚ) :
    ∀ fuel k s r texit,
      doRolloutsLoop eval_prob noiseCount numParams min_task_runtime oracle
          times tstart k s fuel = some (r, texit) →
      r.noise_indices ≠ [] ∧ min_task_runtime ≤ texit - tstart := by
  intro fuel
  induction fuel with
  | zero =>
      intro k s r texit h
      rw [doRolloutsLoop_eq] at h
      by_cases hc : s.noise_indices.length = 0 ∨
          times k - tstart < min_task_runtime
      · rw [if_pos hc] at h
        exact absurd h (by simp)
      · rw [if_neg hc] at h
        push_neg at hc
        obtain ⟨hc1, hc2⟩ := hc
        simp only [Option.some.injEq, Prod.mk.injEq] at h
        obtain ⟨h1, h2⟩ := h
        subst h1; subst h2
        exact ⟨fun hnil => hc1 (List.length_eq_zero.mpr hnil), hc2⟩
  | succ fuel ih =>
      intro k s r texit h
      rw [doRolloutsLoop_eq] at h
      by_cases hc : s.noise_indices.length = 0 ∨
          times k - tstart < min_task_runtime
      · rw [if_pos hc] at h
        exact ih _ _ _ _ h
      · rw [if_neg hc] at h
        push_neg at hc
        obtain ⟨hc1, hc2⟩ := hc
        simp only [Option.some.injEq, Prod.mk.injEq] at h
        obtain ⟨h1, h2⟩ := h
        subst h1; subst h2
        exact ⟨fun hnil => hc1 (List.length_eq_zero.mpr hnil), hc2⟩

/-- C5: `Worker.do_rollouts(params, timestep_limit)` returns only when at
least one perturbation pair has been collected and the elapsed time at the
exit check is `≥ min_task_runtime`: every returned `Result` has a non-empty
`noise_indices` list (so evaluation rollouts alone, which never append to
`noise_indices`, can never satisfy the exit condition). -/
theorem do_rollouts_exit_conditions (eval_prob : ℚ)
    (noiseCount numParams : Nat) (min_task_runtime : ℚ)
    (oracle : Nat → IterOracle) (times : Nat → ℚ) (tstart : ℚ) (fuel : Nat)
    (r : Result) (texit : ℚ)
    (h : do_rollouts eval_prob noiseCount numParams min_task_runtime oracle
        times tstart fuel = some (r, texit)) :
    r.noise_indices ≠ [] ∧ min_task_runtime ≤ texit - tstart :=
  doRolloutsLoop_exit eval_prob noiseCount numParams min_task_runtime oracle
    times tstart fuel 0 DoState.empty r texit h

/-- C5 witness: with `eval_prob = 0`, `min_task_runtime = 0`, a constant
zero clock, and an all-zero oracle, the loop performs one perturbation pair
and exits with `noise_indices = [0]` and elapsed time `0 - 0 ≥ 0`. -/
theorem do_rollouts_exit_conditions_witness :
    (⟨[0], [(0, 0)], [(0, 0)], [(0, 0)], [], []⟩ : Result).noise_indices ≠ []
      ∧ (0 : ℚ) ≤ 0 - 0 :=
  do_rollouts_exit_conditions 0 5 3 0
    (fun _ => ⟨0, ⟨0, 0, 0⟩, 0, ⟨0, 0, 0⟩, ⟨0, 0, 0⟩⟩) (fun _ => 0) 0 2
    ⟨[0], [(0, 0)], [(0, 0)], [(0, 0)], [], []⟩ 0
    (by simp [do_rollouts, doRolloutsLoop_eq, doRolloutsBody, DoState.empty,
          SharedNoiseTable.sample_index, randint])

/-- Concatenating the chunks of a list (for a positive chunk size) restores
the list. -/
theorem chunks_flatten {α : Type} (n : Nat) (hn : n ≠ 0) (l : List α) :
    (chunks n l).flatten = l := by
  suffices h : ∀ m (l : List α), l.length ≤ m → (chunks n l).flatten = l from
    h l.length l (Nat.le_refl _)
  intro m
  induction m with
  | zero =>
      intro l hl
      cases l with
      | nil => simp [chunks]
      | cons x xs => simp at hl
  | succ m ih =>
      intro l hl
      cases l with
      | nil => simp [chunks]
      | cons x xs =>
        simp only [chunks, if_neg hn, List.flatten_cons]
        rw [ih ((x :: xs).drop n) ?_]
        · exact List.take_append_drop n (x :: xs)
        · simp only [List.length_cons] at hl
          simp only [List.length_drop, List.length_cons]
          omega

/-- Folding chunk-by-chunk (summing each chunk with an inner fold and
adding its length to the counter) is the same as folding over the
concatenation of the chunks and counting its elements. -/
theorem foldl_chunkStep_split {β γ : Type} (f : β → γ → β) :
    ∀ (L : List (List γ)) (v : β) (c : Nat),
      L.foldl (fun acc chunk => (chunk.foldl f acc.1, acc.2 + chunk.length))
          (v, c)
        = (L.flatten.foldl f v, c + L.flatten.length) := by
  intro L
  induction L with
  | nil => intro v c; simp
  | cons chunk L ih =>
      intro v c
      simp only [List.foldl_cons, List.flatten_cons, List.foldl_append,
        List.length_append]
      rw [ih]
      simp [Nat.add_assoc]

/-- For any positive `batch_size`, the batched aggregator computes exactly
the plain weighted sum and counts exactly the number of weight/vector
pairs. -/
theorem batched_weighted_sum_eq_weighted_sum (numParams batch_size : Nat)
    (hb : batch_size ≠ 0) (ws : List ℚ) (vs : List (List ℚ)) :
    batched_weighted_sum numParams batch_size ws vs
      = (weighted_sum numParams ws vs, (List.zip ws vs).length) := by
  unfold batched_weighted_sum weighted_sum
  rw [foldl_chunkStep_split, chunks_flatten batch_size hb]
  simp

/-- C6: in `ES.step`, with `N` sampled perturbation pairs
(`noisy_returns` of shape `[N, 2]`, `noise_indices` of length `N`), the
aggregated weighted sum of noise windows is divided by
`noisy_returns.size = 2 * N`, i.e. `g = sum / (2N)`, and the aggregator's
returned `count` equals `N` (the assertion `count == len(noise_indices)`
holds). -/
theorem step_gradient_div_two_N (noise : List ℚ) (numParams : Nat)
    (procFn : List (ℚ × ℚ) → List (ℚ × ℚ)) (noise_indices : List Nat)
    (noisy_returns : List (ℚ × ℚ))
    (hproc : (procFn noisy_returns).length = noisy_returns.length)
    (hlen : noise_indices.length = noisy_returns.length) :
    (stepGradient noise numParams procFn noise_indices noisy_returns).2
        = noise_indices.length ∧
    (stepGradient noise numParams procFn noise_indices noisy_returns).1
        = (weighted_sum numParams
             ((procFn noisy_returns).map (fun p => p.1 - p.2))
             (noise_indices.map
               (fun i => SharedNoiseTable.get noise i numParams))).map
            (fun x => x / ((2 * noise_indices.length : Nat) : ℚ)) := by
  have hb := batched_weighted_sum_eq_weighted_sum numParams 500 (by decide)
    ((procFn noisy_returns).map (fun p => p.1 - p.2))
    (noise_indices.map (fun i => SharedNoiseTable.get noise i numParams))
  constructor
  · simp only [stepGradient, hb]
    simp [List.length_zip, hproc, hlen]
  · simp only [stepGradient, hb]
    rw [hlen]

/-- C6 witness: `N = 2` pairs on the 4-element table `[1, 2, 3, 4]` with
windows of width 2: the count is 2 and `g` is the weighted sum divided by
`2 * 2 = 4`. -/
theorem step_gradient_div_two_N_witness :
    (stepGradient [1, 2, 3, 4] 2 id [0, 2] [(1, 0), (0, 2)]).2
        = ([0, 2] : List Nat).length ∧
    (stepGradient [1, 2, 3, 4] 2 id [0, 2] [(1, 0), (0, 2)]).1
        = (weighted_sum 2
             ((id [(1, 0), (0, 2)] : List (ℚ × ℚ)).map (fun p => p.1 - p.2))
             (([0, 2] : List Nat).map
               (fun i => SharedNoiseTable.get [1, 2, 3, 4] i 2))).map
            (fun x => x / ((2 * ([0, 2] : List Nat).length : Nat) : ℚ)) :=
  step_gradient_div_two_N [1, 2, 3, 4] 2 id [0, 2] [(1, 0), (0, 2)] rfl rfl

/-- C7 counterexample: with `report_length = 4` and two iterations whose
evaluation returns are `[0, 0, 0]` and `[6]`, the reported
`episode_reward_mean` is `(0 + 6) / 2 = 3` (mean of the two per-iteration
means), while the mean of the last four individual evaluation scores
`[0, 0, 0, 6]` is `3/2` — refuting "equals the arithmetic mean of the last
`report_length` individual evaluation scores". -/
theorem reward_mean_not_mean_of_individual_scores :
    episodeRewardMean [[0, 0, 0], [6]] 4 = 3 ∧
    claimedRewardMean [[0, 0, 0], [6]] 4 = 3 / 2 ∧
    episodeRewardMean [[0, 0, 0], [6]] 4 ≠ claimedRewardMean [[0, 0, 0], [6]] 4 := by
  refine ⟨?_, ?_, ?_⟩
  · norm_num [episodeRewardMean, rewardListAfter, updateRewardList, npMean,
      tailSlice]
  · norm_num [claimedRewardMean, npMean, tailSlice]
  · norm_num [episodeRewardMean, claimedRewardMean, rewardListAfter,
      updateRewardList, npMean, tailSlice]

/-- `self.reward_list` in closed form: one entry per iteration that had at
least one evaluation rollout, namely the mean of that iteration's
evaluation returns. -/
theorem rewardListAfter_eq_filtered_means (iters : List (List ℚ)) :
    rewardListAfter iters
      = (iters.filter (fun l => 0 < l.length)).map npMean := by
  have main : ∀ (its : List (List ℚ)) (acc : List ℚ),
      its.foldl updateRewardList acc
        = acc ++ (its.filter (fun l => 0 < l.length)).map npMean := by
    intro its
    induction its with
    | nil => intro acc; simp
    | cons l rest ih =>
        intro acc
        simp only [List.foldl_cons]
        rw [ih]
        by_cases hl : 0 < l.length
        · rw [updateRewardList, if_pos hl,
            List.filter_cons_of_pos (by simpa using hl)]
          simp
        · rw [updateRewardList, if_neg hl,
            List.filter_cons_of_neg (by simpa using hl)]
  simpa using main iters []

/-- C7 (amended): the per-iteration result's `episode_reward_mean` equals
the arithmetic mean of the last `report_length` *per-iteration mean*
evaluation scores: each iteration with at least one evaluation rollout
contributes one entry — the mean of that iteration's evaluation returns —
and iterations with no evaluation rollout contribute nothing. -/
theorem episode_reward_mean_iteration_means (iters : List (List ℚ))
    (report_length : Nat) :
    episodeRewardMean iters report_length
      = npMean (tailSlice ((iters.filter (fun l => 0 < l.length)).map npMean)
          report_length) := by
  rw [episodeRewardMean, rewardListAfter_eq_filtered_means]

/-! ## Concrete evaluations

Sanity checks that the embedded operations compute on concrete inputs. -/

example : SharedNoiseTable.get [1, 2, 3, 4, 5] 1 3 = [2, 3, 4] := by decide

example : SharedNoiseTable.sample_index 10 4 13 = 13 % 7 := by decide

example : episodeRewardMean [[0, 0, 0], [6]] 4 = 3 := by
  norm_num [episodeRewardMean, rewardListAfter, updateRewardList, npMean, tailSlice]

example : claimedRewardMean [[0, 0, 0], [6]] 4 = 3 / 2 := by
  norm_num [claimedRewardMean, npMean, tailSlice]

example : batched_weighted_sum 2 2 [1, 2, 3] [[1, 0], [0, 1], [1, 1]]
    = ([4, 5], 3) := by
  norm_num [batched_weighted_sum, chunks, vadd, vscale, List.replicate_succ]

example : weighted_sum 2 [1, 2, 3] [[1, 0], [0, 1], [1, 1]] = [4, 5] := by
  norm_num [weighted_sum, vadd, vscale, List.replicate_succ]

example :
    collect_results (fun _ => [⟨[7], [(1, 2)], [(1, -1)], [(10, 20)], [5], [3]⟩]) 2 30 1
      = some ([⟨[7], [(1, 2)], [(1, -1)], [(10, 20)], [5], [3]⟩], 2, 30) := by decide

example :
    collect_results (fun _ => [⟨[7], [(1, 2)], [(1, -1)], [(10, 20)], [5], [3]⟩]) 2 31 1
      = none := by decide

example :
    do_rollouts (1/2) 10 4 1
      (fun _ => ⟨1, ⟨0, 0, 0⟩, 3, ⟨5, 1, 7⟩, ⟨-5, -1, 8⟩⟩) (fun k => k) 0 2
      = some (⟨[3], [(5, -5)], [(1, -1)], [(7, 8)], [], []⟩, 1) := by
  norm_num [do_rollouts, doRolloutsLoop, doRolloutsBody, DoState.empty,
    SharedNoiseTable.sample_index, randint]

end ES
